import Mathlib

/-!
The 7z archive adapter of `file_7z.cpp`.

A shallow embedding of `src/common/filesystem/source/file_7z.cpp`: the archive handle
`C7zArchive`, the lump type `F7ZLump`, the archive file `F7ZFile` with its `Open`, and the
probe `Check7Z`.

The 7z library (`7z.h`, `7zCrc.h`), the resource file base classes (`resourcefile.h`) and
`FileReader` are not part of the file.  What the code uses of them is taken as a parameter
(`Sz`, `CSzArEx`, `ELumpFlags`) or modelled from the specification, which is said at each
place.  Stateful code passes its state explicitly; a C++ exception is a value of the result.
-/

namespace FileSys

/-! ## Machine integers -/

/-- The value of `static_cast<int>(n)`, also of storing `n` in an `int`: the low 32 bits of
`n` read as a two's complement number. -/
def toInt32 (n : Int) : Int := (n + 2147483648) % 4294967296 - 2147483648

/-- The value of `n` converted to `UInt32` (`unsigned`, `uint32_t`): its low 32 bits. -/
def toUInt32 (n : Int) : Nat := (n % 4294967296).toNat

/-- The value of `static_cast<char>(u)` for a UTF-16 code unit `u`, as the byte it leaves:
the low 8 bits. -/
def toChar (u : Nat) : Nat := u % 256

/-- The C library `tolower` on a byte, in the "C" locale: the letters `A`..`Z` (65..90) go
to `a`..`z`, every other byte is returned as it is. -/
def tolower (c : Nat) : Nat := if 65 ≤ c ∧ c ≤ 90 then c + 32 else c

/-! ## The byte source -/

/-- Modelled from the spec: the Byte Source (`FileReader`, declared outside the file), a
seekable, readable stream over the archive bytes: the bytes and the stream position. -/
structure FileReader where
  Data : List Nat
  Pos : Nat
deriving DecidableEq

/-- Modelled from the spec: `FileReader::GetLength`, the number of bytes of the source. -/
def FileReader.GetLength (file : FileReader) : Nat := file.Data.length

/-- Modelled from the spec: `FileReader::Seek(offset, FileReader::SeekSet)`, the absolute
seek of the Byte Source. -/
def FileReader.Seek (file : FileReader) (offset : Nat) : FileReader :=
  { file with Pos := offset }

/-- Modelled from the spec: `FileReader::Read(buf, len)`, the bounded read of the Byte
Source: the bytes from the stream position on, at most `len` of them, and the position
moved past them. -/
def FileReader.Read (file : FileReader) (len : Nat) : List Nat × FileReader :=
  ((file.Data.drop file.Pos).take len,
   { file with Pos := file.Pos + ((file.Data.drop file.Pos).take len).length })

/-! ## The 7z library, a black box -/

/-- The parsed Container Table `CSzArEx` as `F7ZFile::Open` reads it: the field `NumFiles`
(a `UInt32`), the macro `SzArEx_IsDir(p, i)`, the code units `SzArEx_GetFileNameUtf16(p, i,
dest)` stores at `dest` (the value it returns is their number, also when `dest` is `NULL`),
and the macro `SzArEx_GetFileSize(p, i)` (a `UInt64`). -/
structure CSzArEx where
  NumFiles : Nat
  SzArEx_IsDir : Nat → Bool
  SzArEx_GetFileNameUtf16 : Nat → List Nat
  SzArEx_GetFileSize : Nat → Nat

/-- What a call of `SzArEx_Open` leaves: its `SRes`, the table, the look-ahead stream and
the reader it read through. -/
structure SzOpen (σ : Type) where
  res : Int
  DB : CSzArEx
  LookStream : σ
  File : FileReader

/-- What a call of `SzArEx_Extract` leaves: its `SRes`, the look-ahead stream and the
reader, the three in-out arguments `BlockIndex`, `OutBuffer`, `OutBufferSize`, and the two
out arguments `offset` and `out_size_processed`. -/
structure SzExtract (σ : Type) where
  res : Int
  LookStream : σ
  File : FileReader
  BlockIndex : Nat
  OutBuffer : Option (List Nat)
  OutBufferSize : Nat
  offset : Nat
  out_size_processed : Nat

/-- The declarations of `7z.h` the file uses, none of which is in the file: the result
codes, the signature (`k7zSignatureSize` is the length of `k7zSignature`), the state
`LookToRead2_INIT` gives the look-ahead stream, the table `SzArEx_Init` leaves, and the two
engine calls.  `σ` is the state of the look-ahead stream `CLookToRead2`. -/
structure Sz (σ : Type) where
  SZ_OK : Int
  SZ_ERROR_MEM : Int
  SZ_ERROR_CRC : Int
  SZ_ERROR_UNSUPPORTED : Int
  k7zSignature : List Nat
  LookToRead2_INIT : σ
  SzArEx_Init : CSzArEx
  SzArEx_Open : CSzArEx → σ → FileReader → SzOpen σ
  SzArEx_Extract : CSzArEx → σ → FileReader → Nat → Nat → Option (List Nat) → Nat →
    SzExtract σ

/-- The constant `k7zSignatureSize` of `7z.h`: `k7zSignature` is declared with this size. -/
def Sz.k7zSignatureSize {σ : Type} (L : Sz σ) : Nat := L.k7zSignature.length

/-! ## Buffers -/

/-- A `char` block handed to `Extract` as the destination: the number of bytes it was
allocated with and the bytes `memcpy` has stored from its start on.  The other bytes of a
fresh block are indeterminate and not represented. -/
structure CharBuf where
  size : Nat
  bytes : List Nat
deriving DecidableEq

/-- A fresh block of `n` bytes (`new char[n]`, `TArray<char>::Resize(n)`). -/
def CharBuf.alloc (n : Nat) : CharBuf := { size := n, bytes := [] }

/-- The call `memcpy(dest, src, n)` where `src` lists the `n` source bytes: they replace the
first `n` bytes of the block. -/
def memcpy (dest : CharBuf) (src : List Nat) : CharBuf :=
  { dest with bytes := src ++ dest.bytes.drop src.length }

/-! ## `C7zArchive` -/

/-- The archive handle.  `ArchiveStream` refers to the reader of the owning file, which the
operations below take and give back; `Extracts` is a ghost field, the file index and the
result of every `Extract` call made on the handle, oldest first. -/
structure C7zArchive (σ : Type) where
  DB : CSzArEx
  LookStream : σ
  BlockIndex : Nat
  OutBuffer : Option (List Nat)
  OutBufferSize : Nat
  Extracts : List (Nat × Int)

/-- The constructor `C7zArchive(FileReader &file)`: it rewinds the reader
(`file.Seek(0, FileReader::SeekSet)`), initialises the look-ahead stream and the table, and
sets `BlockIndex = 0xFFFFFFFF`, `OutBuffer = NULL`, `OutBufferSize = 0`.  (The global CRC
table it generates on first use is not represented.) -/
def C7zArchive.new {σ : Type} (L : Sz σ) (file : FileReader) : C7zArchive σ × FileReader :=
  ({ DB := L.SzArEx_Init, LookStream := L.LookToRead2_INIT, BlockIndex := 0xFFFFFFFF,
     OutBuffer := none, OutBufferSize := 0, Extracts := [] },
   file.Seek 0)

/-- What `C7zArchive::Open` leaves. -/
structure ArchiveOpen (σ : Type) where
  res : Int
  Archive : C7zArchive σ
  File : FileReader

/-- `C7zArchive::Open`: `return SzArEx_Open(&DB, &LookStream.vt, &g_Alloc, &g_Alloc)`. -/
def C7zArchive.Open {σ : Type} (L : Sz σ) (a : C7zArchive σ) (file : FileReader) :
    ArchiveOpen σ :=
  let r := L.SzArEx_Open a.DB a.LookStream file
  { res := r.res, Archive := { a with DB := r.DB, LookStream := r.LookStream },
    File := r.File }

/-- What `C7zArchive::Extract` leaves: its result, the destination block, the handle and the
reader. -/
structure ArchiveExtract (σ : Type) where
  res : Int
  buffer : CharBuf
  Archive : C7zArchive σ
  File : FileReader

/-- `C7zArchive::Extract(file_index, buffer)`: one `SzArEx_Extract` call, and when it
returns `SZ_OK` the `out_size_processed` bytes at `OutBuffer + offset` are copied to
`buffer`. -/
def C7zArchive.Extract {σ : Type} (L : Sz σ) (a : C7zArchive σ) (file : FileReader)
    (file_index : Nat) (buffer : CharBuf) : ArchiveExtract σ :=
  let r := L.SzArEx_Extract a.DB a.LookStream file file_index a.BlockIndex a.OutBuffer
    a.OutBufferSize
  let a1 : C7zArchive σ :=
    { a with LookStream := r.LookStream, BlockIndex := r.BlockIndex,
             OutBuffer := r.OutBuffer, OutBufferSize := r.OutBufferSize,
             Extracts := a.Extracts ++ [(file_index, r.res)] }
  if r.res = L.SZ_OK then
    { res := r.res,
      buffer := memcpy buffer (((r.OutBuffer.getD []).drop r.offset).take r.out_size_processed),
      Archive := a1, File := r.File }
  else
    { res := r.res, buffer := buffer, Archive := a1, File := r.File }

/-! ## `F7ZLump` -/

/-- The two flag constants of `resourcefile.h` the file uses. -/
structure ELumpFlags where
  LUMPF_FULLPATH : Nat
  LUMPF_COMPRESSED : Nat

/-- A lump of a 7z file, with the members of `FResourceLump` the file assigns.  `Name` is
the NUL-terminated string `Open` hands to `LumpNameSetup` (its bytes before the NUL);
`LumpSize` and `Position` are `int`; `Cache` is `NULL` (`none`) or the cached block.  The
member `Owner`, always the file that built the lump, is passed to `FillCache` instead. -/
structure F7ZLump where
  Name : List Nat
  LumpSize : Int
  Flags : Nat
  Position : Int
  Cache : Option CharBuf
  RefCount : Int
deriving DecidableEq

/-- Modelled from the spec: a default-constructed lump (the constructor of `FResourceLump`
is outside the file): no name, no cached bytes ("absent until first access"), nothing
else set. -/
def F7ZLump.default : F7ZLump :=
  { Name := [], LumpSize := 0, Flags := 0, Position := 0, Cache := none, RefCount := 0 }

/-- How a call of `FillCache` ends: it returns a value, or it throws the
`FileSystemException` "Error %d reading from 7z archive" with the code, or the
`new char[LumpSize]` of a negative size throws `std::bad_array_new_length`. -/
inductive FillOutcome where
  | returned (value : Int)
  | FileSystemException (code : Int)
  | bad_array_new_length
deriving DecidableEq

/-- What `F7ZLump::FillCache` leaves: how it ended, the lump, and the owner's archive handle
and reader. -/
structure FillResult (σ : Type) where
  outcome : FillOutcome
  lump : F7ZLump
  Archive : C7zArchive σ
  Reader : FileReader

/-- `F7ZLump::FillCache`, called on a lump whose owner holds the handle `Archive` and the
reader `Reader`: it allocates `new char[LumpSize]`, extracts the entry `Position` into it,
throws on any result but `SZ_OK`, and otherwise sets `RefCount = 1` and returns 1. -/
def F7ZLump.FillCache {σ : Type} (L : Sz σ) (lump : F7ZLump) (Archive : C7zArchive σ)
    (Reader : FileReader) : FillResult σ :=
  if lump.LumpSize < 0 then
    { outcome := .bad_array_new_length, lump := lump, Archive := Archive, Reader := Reader }
  else
    let Cache := CharBuf.alloc lump.LumpSize.toNat
    let r := Archive.Extract L Reader (toUInt32 lump.Position) Cache
    if r.res ≠ L.SZ_OK then
      { outcome := .FileSystemException r.res, lump := { lump with Cache := some r.buffer },
        Archive := r.Archive, Reader := r.File }
    else
      { outcome := .returned 1,
        lump := { lump with Cache := some r.buffer, RefCount := 1 },
        Archive := r.Archive, Reader := r.File }

/-! ## `F7ZFile` -/

/-- Modelled from the spec: `FixPathSeparator` (declared outside the file), which normalizes
the path separators of a NUL-terminated string in place: up to the first NUL, every
backslash (92) becomes `/` (47). -/
def FixPathSeparator : List Nat → List Nat
  | [] => []
  | c :: cs => if c = 0 then c :: cs else (if c = 92 then 47 else c) :: FixPathSeparator cs

/-- The NUL-terminated string `s.c_str()` of a `std::string` with the bytes `s`: the bytes
before the first NUL (the string's own terminator follows its last byte). -/
def c_str (s : List Nat) : List Nat := s.takeWhile (fun c => c != 0)

/-- A diagnostic `Open` sends through `Printf`, all at `FSMessageLevel::Error`:
"%s: Decoder does not support this archive", "Cannot allocate memory", "CRC error",
"error #%d" and "%s: unsupported 7z/LZMA file!". -/
inductive Diagnostic where
  | decoderDoesNotSupport (FileName : String)
  | cannotAllocateMemory
  | crcError
  | errorNumber (res : Int)
  | unsupported7z (FileName : String)
deriving DecidableEq

/-- The 7z file.  `Reader`, `FileName` and `NumLumps` (a `uint32_t`) are members of the base
class `FResourceFile`.  `Lumps` lists the slots of the array `Open` has written, in order;
the slots after them stay default-constructed and are not listed, and `NULL` is the empty
list. -/
structure F7ZFile (σ : Type) where
  FileName : String
  Reader : FileReader
  NumLumps : Nat
  Lumps : List F7ZLump
  Archive : Option (C7zArchive σ)

/-- The constructor `F7ZFile(filename, filer, sp)`: the base class takes the reader, and
`Lumps = NULL`, `Archive = NULL`. -/
def F7ZFile.new {σ : Type} (filename : String) (filer : FileReader) : F7ZFile σ :=
  { FileName := filename, Reader := filer, NumLumps := 0, Lumps := [], Archive := none }

/-- The lumps `Lumps[0 .. NumLumps-1]`, the ones `GetLump` gives out. -/
def F7ZFile.VisibleLumps {σ : Type} (self : F7ZFile σ) : List F7ZLump :=
  self.Lumps.take self.NumLumps

/-- The variables of the directory-building loop of `Open`: the slots written so far
(`lump_p` points behind the last of them) and the `int` counter `skipped`. -/
structure OpenLoop where
  Lumps : List F7ZLump
  skipped : Int

/-- One pass of the loop body of `Open` (lines 259-290) for the index `i`.  The two strings
are resized to `(unsigned)nameLength`; the code units and bytes stored inside that size are
the ones represented.  `CheckEmbedded`, a member of the base class outside the file, is not
represented: the lump is recorded as `Open` assigns it. -/
def F7ZFile.Open.body (F : ELumpFlags) (archPtr : CSzArEx) (st : OpenLoop) (i : Nat) :
    OpenLoop :=
  if archPtr.SzArEx_IsDir i then
    { st with skipped := toInt32 (st.skipped + 1) }
  else
    let nameLength := (archPtr.SzArEx_GetFileNameUtf16 i).length
    if 0 = nameLength then
      { st with skipped := toInt32 (st.skipped + 1) }
    else
      let nameUTF16 := (archPtr.SzArEx_GetFileNameUtf16 i).take (toUInt32 nameLength)
      let nameASCII := nameUTF16.map (fun u => tolower (toChar u))
      let nameASCII := FixPathSeparator nameASCII
      let lump : F7ZLump :=
        { F7ZLump.default with
          Name := c_str nameASCII
          LumpSize := toInt32 (archPtr.SzArEx_GetFileSize i)
          Flags := F.LUMPF_FULLPATH ||| F.LUMPF_COMPRESSED
          Position := toInt32 i }
      { st with Lumps := st.Lumps ++ [lump] }

/-- What `F7ZFile::Open` leaves: the value it returns, the file, and the diagnostics it sent
through `Printf`, oldest first. -/
structure OpenResult (σ : Type) where
  ret : Bool
  self : F7ZFile σ
  Printf : List Diagnostic

/-- The call `Archive->Open()` on line 224, on the handle line 220 constructs over the
file's reader. -/
def F7ZFile.Open.header {σ : Type} (L : Sz σ) (self : F7ZFile σ) : ArchiveOpen σ :=
  (C7zArchive.new L self.Reader).1.Open L (C7zArchive.new L self.Reader).2

/-- `F7ZFile::Open`.  After the header parse the loop runs `i` from 0 to `NumFiles - 1`,
`NumLumps -= skipped` is computed in `uint32_t`, and the first lump is extracted into a
temporary block as a check.  `GenerateHash` and `PostProcessArchive`, members of the base
class outside the file that run before `return true`, are not represented. -/
def F7ZFile.Open {σ : Type} (L : Sz σ) (F : ELumpFlags) (self : F7ZFile σ) : OpenResult σ :=
  let h := F7ZFile.Open.header L self
  if h.res ≠ L.SZ_OK then
    { ret := false
      self := { self with Reader := h.File, Archive := none }
      Printf :=
        [if h.res = L.SZ_ERROR_UNSUPPORTED then .decoderDoesNotSupport self.FileName
         else if h.res = L.SZ_ERROR_MEM then .cannotAllocateMemory
         else if h.res = L.SZ_ERROR_CRC then .crcError
         else .errorNumber h.res] }
  else
    let archPtr := h.Archive.DB
    let st := (List.range archPtr.NumFiles).foldl (F7ZFile.Open.body F archPtr)
      { Lumps := [], skipped := 0 }
    let NumLumps := toUInt32 (archPtr.NumFiles - st.skipped)
    if NumLumps > 0 then
      let Lumps0 := st.Lumps.headD F7ZLump.default
      let temp := CharBuf.alloc (toUInt32 Lumps0.LumpSize)
      let r := h.Archive.Extract L h.File (toUInt32 Lumps0.Position) temp
      if L.SZ_OK ≠ r.res then
        { ret := false
          self := { self with Reader := r.File, NumLumps := NumLumps, Lumps := st.Lumps,
                              Archive := some r.Archive }
          Printf := [.unsupported7z self.FileName] }
      else
        { ret := true
          self := { self with Reader := r.File, NumLumps := NumLumps, Lumps := st.Lumps,
                              Archive := some r.Archive }
          Printf := [] }
    else
      { ret := true
        self := { self with Reader := h.File, NumLumps := NumLumps, Lumps := st.Lumps,
                            Archive := some h.Archive }
        Printf := [] }

/-! ## `Check7Z` -/

/-- What `Check7Z` leaves: the file it returns (`none` is `NULL`), the caller's reader
(`none` once it has been moved into the returned file), whether an `F7ZFile` was constructed
and opened, and the diagnostics sent through `Printf`. -/
structure Check7ZResult (σ : Type) where
  ret : Option (F7ZFile σ)
  file : Option FileReader
  constructed : Bool
  Printf : List Diagnostic

/-- `Check7Z`: when the source is at least `k7zSignatureSize` long its first bytes are read
between two seeks to offset 0 and compared with the signature; on a match an `F7ZFile` is
constructed and opened, and when `Open` fails the reader is moved back to the caller and
the file deleted. -/
def Check7Z {σ : Type} (L : Sz σ) (F : ELumpFlags) (filename : String) (file : FileReader) :
    Check7ZResult σ :=
  if file.GetLength ≥ L.k7zSignatureSize then
    let file1 := file.Seek 0
    let rd := file1.Read L.k7zSignatureSize
    let head := rd.1
    let file2 := rd.2.Seek 0
    if head = L.k7zSignature then
      let rf : F7ZFile σ := F7ZFile.new filename file2
      let o := rf.Open L F
      if o.ret then
        { ret := some o.self, file := none, constructed := true, Printf := o.Printf }
      else
        { ret := none, file := some o.self.Reader, constructed := true, Printf := o.Printf }
    else
      { ret := none, file := some file2, constructed := false, Printf := [] }
  else
    { ret := none, file := some file, constructed := false, Printf := [] }

/-! ## Fixtures: a stub engine and test containers -/

/-- A stub 7z library with the codes and the signature of the 7z format (0, 2, 3, 4 and the
six bytes `7z BC AF 27 1C`): the header parse returns `res` and the table `db`, and the
extraction of the entry `i` returns `(extract i).1` and the bytes `(extract i).2`. -/
def stubSz (res : Int) (db : CSzArEx) (extract : Nat → Int × List Nat) : Sz Unit :=
  { SZ_OK := 0, SZ_ERROR_MEM := 2, SZ_ERROR_CRC := 3, SZ_ERROR_UNSUPPORTED := 4
    k7zSignature := [55, 122, 188, 175, 39, 28]
    LookToRead2_INIT := ()
    SzArEx_Init :=
      { NumFiles := 0, SzArEx_IsDir := fun _ => false,
        SzArEx_GetFileNameUtf16 := fun _ => [], SzArEx_GetFileSize := fun _ => 0 }
    SzArEx_Open := fun _ s file => { res := res, DB := db, LookStream := s, File := file }
    SzArEx_Extract := fun _ s file i _ _ _ =>
      { res := (extract i).1, LookStream := s, File := file, BlockIndex := 0,
        OutBuffer := some (extract i).2, OutBufferSize := (extract i).2.length,
        offset := 0, out_size_processed := (extract i).2.length } }

/-- The flag values used in the examples. -/
def stubFlags : ELumpFlags := { LUMPF_FULLPATH := 2, LUMPF_COMPRESSED := 16 }

/-- A table given by the list of its entries: directory flag, name code units, size. -/
def tableOf (entries : List (Bool × List Nat × Nat)) : CSzArEx :=
  { NumFiles := entries.length
    SzArEx_IsDir := fun i => (entries.getD i (false, [], 0)).1
    SzArEx_GetFileNameUtf16 := fun i => (entries.getD i (false, [], 0)).2.1
    SzArEx_GetFileSize := fun i => (entries.getD i (false, [], 0)).2.2 }

/-- The test container of the specification: `a.txt` (5 bytes), the directory `DIR/`, and
`b.bin` (256 bytes). -/
def testTable : CSzArEx :=
  tableOf [(false, [97, 46, 116, 120, 116], 5), (true, [68, 73, 82, 47], 0),
    (false, [98, 46, 98, 105, 110], 256)]

/-- The stub engine over `testTable`: the parse succeeds and every extraction returns
`SZ_OK` with the single byte `i` for the entry `i`. -/
def testSz : Sz Unit := stubSz 0 testTable (fun i => (0, [i]))

/-- A freshly constructed file over a reader that holds the six signature bytes. -/
def testFile : F7ZFile Unit := F7ZFile.new "test.7z" ⟨[55, 122, 188, 175, 39, 28], 0⟩

/-- A table with the single file entry `SubDir\File.TXT` (15 code units). -/
def subDirTable : CSzArEx :=
  tableOf [(false, [83, 117, 98, 68, 105, 114, 92, 70, 105, 108, 101, 46, 84, 88, 84], 0)]

/-- A table with the single file entry whose name is the one code unit U+0100. -/
def u0100Table : CSzArEx := tableOf [(false, [256], 0)]

/-- A table with the single file entry `big` of 2^31 bytes. -/
def bigTable : CSzArEx := tableOf [(false, [98, 105, 103], 2147483648)]

/-- A lump of one byte at the container index 0, with nothing cached. -/
def testLump : F7ZLump := { F7ZLump.default with LumpSize := 1, Position := 0 }

/-- A reader over three bytes, fewer than the signature has, positioned at offset 2. -/
def shortReader : FileReader := ⟨[55, 122, 188], 2⟩

/-! ## Specification-side definitions -/

/-- An entry that is neither a directory nor has a zero name length. -/
def CSzArEx.isFile (db : CSzArEx) (i : Nat) : Bool :=
  !db.SzArEx_IsDir i && ((db.SzArEx_GetFileNameUtf16 i).length != 0)

/-- The container indices of the entries that are neither directories nor zero-length-named,
in increasing order. -/
def CSzArEx.fileIndices (db : CSzArEx) : List Nat :=
  (List.range db.NumFiles).filter db.isFile

/-- A character with an upper-case letter `A`..`Z` replaced by its lower-case letter, a
backslash replaced by `/`, and any other character unchanged. -/
def normalizeChar (c : Nat) : Nat :=
  if 65 ≤ c ∧ c ≤ 90 then c + 32 else if c = 92 then 47 else c

/-- The lump the loop body records for the entry `i` (used to state the loop invariant). -/
def lumpAt (F : ELumpFlags) (db : CSzArEx) (i : Nat) : F7ZLump :=
  { Name := c_str (FixPathSeparator
      (((db.SzArEx_GetFileNameUtf16 i).take
        (toUInt32 (db.SzArEx_GetFileNameUtf16 i).length)).map (fun u => tolower (toChar u))))
    LumpSize := toInt32 (db.SzArEx_GetFileSize i)
    Flags := F.LUMPF_FULLPATH ||| F.LUMPF_COMPRESSED
    Position := toInt32 i
    Cache := none
    RefCount := 0 }

/-! ## Arithmetic of the conversions -/

theorem toInt32_succ (a : Int) : toInt32 (toInt32 a + 1) = toInt32 (a + 1) := by
  unfold toInt32; omega

theorem toUInt32_sub_toInt32 (n k : Nat) (hk : k ≤ n) (hn : n < 4294967296) :
    toUInt32 ((n : Int) - toInt32 ((k : Nat) : Int)) = n - k := by
  unfold toUInt32 toInt32; omega

theorem toUInt32_toInt32 (i : Nat) (hi : i < 4294967296) :
    toUInt32 (toInt32 (i : Int)) = i := by
  unfold toUInt32 toInt32; omega

theorem toInt32_of_lt (i : Nat) (hi : i < 2147483648) : toInt32 (i : Int) = i := by
  unfold toInt32; omega

theorem toUInt32_of_lt (n : Nat) (hn : n < 4294967296) : toUInt32 (n : Int) = n := by
  unfold toUInt32; omega

/-! ## The directory-building loop -/

theorem body_of_isFile (F : ELumpFlags) (db : CSzArEx) (st : OpenLoop) (i : Nat)
    (h : db.isFile i = true) :
    F7ZFile.Open.body F db st i = { st with Lumps := st.Lumps ++ [lumpAt F db i] } := by
  simp only [CSzArEx.isFile, Bool.and_eq_true, Bool.not_eq_true', bne_iff_ne, ne_eq] at h
  have h2 : ¬ (0 = (db.SzArEx_GetFileNameUtf16 i).length) := fun e => h.2 e.symm
  simp [F7ZFile.Open.body, h.1, h2, lumpAt, F7ZLump.default]

theorem body_of_not_isFile (F : ELumpFlags) (db : CSzArEx) (st : OpenLoop) (i : Nat)
    (h : db.isFile i = false) :
    F7ZFile.Open.body F db st i = { st with skipped := toInt32 (st.skipped + 1) } := by
  unfold F7ZFile.Open.body
  by_cases hd : db.SzArEx_IsDir i = true
  · simp [hd]
  · have hlen : (db.SzArEx_GetFileNameUtf16 i).length = 0 := by
      simpa [CSzArEx.isFile, hd] using h
    simp [hd, hlen]

/-- The loop invariant: after the passes for `0 .. n-1` the written slots are the lumps of
the file entries below `n`, in order, and `skipped` is the `int` count of the others. -/
theorem loop_invariant (F : ELumpFlags) (db : CSzArEx) (n : Nat) :
    (List.range n).foldl (F7ZFile.Open.body F db) { Lumps := [], skipped := 0 } =
      { Lumps := ((List.range n).filter db.isFile).map (lumpAt F db)
        skipped := toInt32 ((n - ((List.range n).filter db.isFile).length : Nat) : Int) } := by
  induction n with
  | zero => simp [toInt32]
  | succ n ih =>
    have hle : ((List.range n).filter db.isFile).length ≤ n := by
      simpa using List.length_filter_le db.isFile (List.range n)
    rw [List.range_succ, List.foldl_append, ih]
    cases h : db.isFile n
    · have e : List.filter db.isFile (List.range n ++ [n]) =
          List.filter db.isFile (List.range n) := by simp [List.filter_append, h]
      rw [e]
      simp only [List.foldl_cons, List.foldl_nil, body_of_not_isFile F db _ n h, toInt32_succ]
      congr 2
      omega
    · have e : List.filter db.isFile (List.range n ++ [n]) =
          List.filter db.isFile (List.range n) ++ [n] := by simp [List.filter_append, h]
      rw [e]
      simp only [List.foldl_cons, List.foldl_nil, body_of_isFile F db _ n h, List.map_append,
        List.map_cons, List.map_nil, List.length_append, List.length_cons, List.length_nil]
      congr 2
      omega

theorem fileIndices_length_le (db : CSzArEx) : db.fileIndices.length ≤ db.NumFiles := by
  simpa [CSzArEx.fileIndices] using List.length_filter_le db.isFile (List.range db.NumFiles)

/-- The value `NumLumps -= skipped` leaves for a table of `UInt32` size. -/
theorem numLumps_eq (db : CSzArEx) (hN : db.NumFiles < 4294967296) :
    toUInt32 ((db.NumFiles : Int) -
      toInt32 ((db.NumFiles - ((List.range db.NumFiles).filter db.isFile).length : Nat) : Int))
      = db.fileIndices.length := by
  have hle := fileIndices_length_le db
  rw [toUInt32_sub_toInt32 _ _ (Nat.sub_le _ _) hN]
  unfold CSzArEx.fileIndices at *
  omega

/-- After a successful header parse `Open` leaves the lumps of the file entries, in order,
and their number in `NumLumps`, whatever it returns. -/
theorem Open_directory {σ : Type} (L : Sz σ) (F : ELumpFlags) (self : F7ZFile σ)
    (hres : (F7ZFile.Open.header L self).res = L.SZ_OK)
    (hN : (F7ZFile.Open.header L self).Archive.DB.NumFiles < 4294967296) :
    (self.Open L F).self.Lumps =
        (F7ZFile.Open.header L self).Archive.DB.fileIndices.map
          (lumpAt F (F7ZFile.Open.header L self).Archive.DB) ∧
      (self.Open L F).self.NumLumps =
        (F7ZFile.Open.header L self).Archive.DB.fileIndices.length := by
  have hn := numLumps_eq _ hN
  unfold F7ZFile.Open
  simp only [hres, ne_eq, not_true_eq_false, if_false, loop_invariant, hn]
  split
  · split <;> exact ⟨rfl, rfl⟩
  · exact ⟨rfl, rfl⟩

theorem Open_VisibleLumps {σ : Type} (L : Sz σ) (F : ELumpFlags) (self : F7ZFile σ)
    (hres : (F7ZFile.Open.header L self).res = L.SZ_OK)
    (hN : (F7ZFile.Open.header L self).Archive.DB.NumFiles < 4294967296) :
    (self.Open L F).self.VisibleLumps =
        (F7ZFile.Open.header L self).Archive.DB.fileIndices.map
          (lumpAt F (F7ZFile.Open.header L self).Archive.DB) := by
  obtain ⟨h1, h2⟩ := Open_directory L F self hres hN
  unfold F7ZFile.VisibleLumps
  rw [h1, h2]
  exact List.take_of_length_le (by simp)

theorem mem_fileIndices (db : CSzArEx) (i : Nat) :
    i ∈ db.fileIndices ↔ i < db.NumFiles ∧ db.SzArEx_IsDir i = false ∧
      (db.SzArEx_GetFileNameUtf16 i).length ≠ 0 := by
  simp [CSzArEx.fileIndices, CSzArEx.isFile]

theorem fileIndices_pairwise (db : CSzArEx) : db.fileIndices.Pairwise (· < ·) := by
  unfold CSzArEx.fileIndices
  exact List.Pairwise.sublist (List.filter_sublist _) (List.pairwise_lt_range _)

theorem mem_VisibleLumps {σ : Type} (L : Sz σ) (F : ELumpFlags) (self : F7ZFile σ)
    (db : CSzArEx) (hres : (F7ZFile.Open.header L self).res = L.SZ_OK)
    (hdb : (F7ZFile.Open.header L self).Archive.DB = db) (hN : db.NumFiles < 4294967296)
    (l : F7ZLump) :
    l ∈ (self.Open L F).self.VisibleLumps ↔ ∃ i ∈ db.fileIndices, lumpAt F db i = l := by
  subst hdb
  rw [Open_VisibleLumps L F self hres hN, List.mem_map]

theorem lumpAt_index (F : ELumpFlags) (db : CSzArEx) (i : Nat) (hi : i < 4294967296) :
    toUInt32 (lumpAt F db i).Position = i :=
  toUInt32_toInt32 i hi

/-! ## Names -/

/-- The string handed to `LumpNameSetup`, for a name buffer of code units `units`: the low
bytes up to the first zero one, normalized. -/
theorem c_str_FixPathSeparator (units : List Nat) :
    c_str (FixPathSeparator (units.map (fun u => tolower (toChar u)))) =
      (units.takeWhile (fun u => u % 256 != 0)).map (fun u => normalizeChar (u % 256)) := by
  induction units with
  | nil => simp [FixPathSeparator, c_str]
  | cons u us ih =>
    have hlt : u % 256 < 256 := Nat.mod_lt _ (by norm_num)
    by_cases h0 : u % 256 = 0
    · simp [FixPathSeparator, c_str, toChar, tolower, h0]
    · have ht : tolower (u % 256) ≠ 0 := by unfold tolower; split <;> omega
      have hn : (if tolower (u % 256) = 92 then 47 else tolower (u % 256)) =
          normalizeChar (u % 256) := by
        unfold tolower normalizeChar
        split_ifs <;> omega
      have hn0 : normalizeChar (u % 256) ≠ 0 := by
        unfold normalizeChar; split_ifs <;> omega
      unfold c_str at ih ⊢
      simp only [List.map_cons, FixPathSeparator, toChar, ht, if_false, hn]
      rw [List.takeWhile_cons_of_pos (by simpa using hn0),
        List.takeWhile_cons_of_pos (by simpa using h0)]
      simp only [List.map_cons, List.cons.injEq, true_and]
      simpa [toChar] using ih

theorem lumpAt_Name (F : ELumpFlags) (db : CSzArEx) (i : Nat)
    (hlen : (db.SzArEx_GetFileNameUtf16 i).length < 4294967296) :
    (lumpAt F db i).Name =
      ((db.SzArEx_GetFileNameUtf16 i).takeWhile (fun u => u % 256 != 0)).map
        (fun u => normalizeChar (u % 256)) := by
  unfold lumpAt
  simp only
  rw [toUInt32_of_lt _ hlen, List.take_length, c_str_FixPathSeparator]

theorem ascii_name (name : List Nat) (h : ∀ u ∈ name, 1 ≤ u ∧ u ≤ 127) :
    (name.takeWhile (fun u => u % 256 != 0)).map (fun u => normalizeChar (u % 256)) =
      name.map normalizeChar := by
  have h1 : name.takeWhile (fun u => u % 256 != 0) = name := by
    rw [List.takeWhile_eq_self_iff]
    intro u hu
    have := h u hu
    simp only [bne_iff_ne, ne_eq]
    omega
  rw [h1]
  apply List.map_congr_left
  intro u hu
  have := h u hu
  rw [Nat.mod_eq_of_lt (by omega)]


theorem lumpAt_Position (F : ELumpFlags) (db : CSzArEx) (i : Nat) :
    (lumpAt F db i).Position = toInt32 (i : Int) := rfl

theorem lumpAt_LumpSize (F : ELumpFlags) (db : CSzArEx) (i : Nat) :
    (lumpAt F db i).LumpSize = toInt32 (db.SzArEx_GetFileSize i : Int) := rfl

theorem lumpAt_Flags (F : ELumpFlags) (db : CSzArEx) (i : Nat) :
    (lumpAt F db i).Flags = F.LUMPF_FULLPATH ||| F.LUMPF_COMPRESSED := rfl

theorem map_lumpAt_index (F : ELumpFlags) (db : CSzArEx) (idx : List Nat)
    (h : ∀ i ∈ idx, i < 4294967296) :
    (idx.map (lumpAt F db)).map (fun l => toUInt32 l.Position) = idx := by
  induction idx with
  | nil => rfl
  | cons i rest ih =>
    have hi : i < 4294967296 := h i (List.mem_cons_self _ _)
    have hrest : ∀ j ∈ rest, j < 4294967296 := fun j hj => h j (List.mem_cons_of_mem _ hj)
    rw [List.map_cons, List.map_cons, ih hrest, lumpAt_Position, toUInt32_toInt32 i hi]

theorem map_lumpAt_Position (F : ELumpFlags) (db : CSzArEx) (idx : List Nat)
    (h : ∀ i ∈ idx, i < 2147483648) :
    (idx.map (lumpAt F db)).map (fun l => l.Position) =
      idx.map (fun (i : Nat) => (i : Int)) := by
  induction idx with
  | nil => rfl
  | cons i rest ih =>
    have hi : i < 2147483648 := h i (List.mem_cons_self _ _)
    have hrest : ∀ j ∈ rest, j < 2147483648 := fun j hj => h j (List.mem_cons_of_mem _ hj)
    rw [List.map_cons, List.map_cons, List.map_cons, ih hrest, lumpAt_Position,
      toInt32_of_lt i hi]

theorem fileIndices_lt (db : CSzArEx) (i : Nat) (hi : i ∈ db.fileIndices) :
    i < db.NumFiles :=
  ((mem_fileIndices db i).1 hi).1

theorem fileIndices_lt_of (db : CSzArEx) (b : Nat) (hN : db.NumFiles ≤ b) :
    ∀ i ∈ db.fileIndices, i < b :=
  fun i hi => Nat.lt_of_lt_of_le (fileIndices_lt db i hi) hN

theorem VisibleLumps_indices {σ : Type} (L : Sz σ) (F : ELumpFlags) (self : F7ZFile σ)
    (hres : (F7ZFile.Open.header L self).res = L.SZ_OK)
    (hN : (F7ZFile.Open.header L self).Archive.DB.NumFiles < 4294967296) :
    (self.Open L F).self.VisibleLumps.map (fun l => toUInt32 l.Position) =
      (F7ZFile.Open.header L self).Archive.DB.fileIndices := by
  rw [Open_VisibleLumps L F self hres hN]
  exact map_lumpAt_index F _ _ (fileIndices_lt_of _ _ (Nat.le_of_lt hN))

/-- A lump of the directory is the lump of a file entry, whose index its `Position` holds. -/
theorem VisibleLumps_lumpAt {σ : Type} (L : Sz σ) (F : ELumpFlags) (self : F7ZFile σ)
    (hres : (F7ZFile.Open.header L self).res = L.SZ_OK)
    (hN : (F7ZFile.Open.header L self).Archive.DB.NumFiles < 4294967296)
    (l : F7ZLump) (hl : l ∈ (self.Open L F).self.VisibleLumps) :
    ∃ i, i ∈ (F7ZFile.Open.header L self).Archive.DB.fileIndices ∧
      lumpAt F (F7ZFile.Open.header L self).Archive.DB i = l ∧ toUInt32 l.Position = i := by
  obtain ⟨i, hi, rfl⟩ := (mem_VisibleLumps L F self _ hres rfl hN l).1 hl
  exact ⟨i, hi, rfl, lumpAt_index F _ i (fileIndices_lt_of _ _ (Nat.le_of_lt hN) i hi)⟩

/-- Every file entry has its lump in the directory. -/
theorem lumpAt_mem_VisibleLumps {σ : Type} (L : Sz σ) (F : ELumpFlags) (self : F7ZFile σ)
    (hres : (F7ZFile.Open.header L self).res = L.SZ_OK)
    (hN : (F7ZFile.Open.header L self).Archive.DB.NumFiles < 4294967296)
    (i : Nat) (h1 : i < (F7ZFile.Open.header L self).Archive.DB.NumFiles)
    (h2 : (F7ZFile.Open.header L self).Archive.DB.SzArEx_IsDir i = false)
    (h3 : ((F7ZFile.Open.header L self).Archive.DB.SzArEx_GetFileNameUtf16 i).length ≠ 0) :
    ∃ l ∈ (self.Open L F).self.VisibleLumps,
      l = lumpAt F (F7ZFile.Open.header L self).Archive.DB i ∧ toUInt32 l.Position = i :=
  ⟨lumpAt F _ i, (mem_VisibleLumps L F self _ hres rfl hN _).2
    ⟨i, (mem_fileIndices _ i).2 ⟨h1, h2, h3⟩, rfl⟩, rfl,
    lumpAt_index F _ i (Nat.lt_trans h1 hN)⟩

/-! ## The claims about the directory -/

/-- C1: after a successful header parse, `NumLumps` as the directory-building loop of `Open`
leaves it is the number of table entries that are neither directories nor zero-length-named;
it is `NumFiles` minus the number of entries skipped, an entry that is both counted once;
and it is the number of visible lumps `Lumps[0 .. NumLumps-1]`.  (`NumFiles` is a `UInt32`.) -/
theorem Open_NumLumps {σ : Type} (L : Sz σ) (F : ELumpFlags) (self : F7ZFile σ)
    (db : CSzArEx) (hres : (F7ZFile.Open.header L self).res = L.SZ_OK)
    (hdb : (F7ZFile.Open.header L self).Archive.DB = db) (hN : db.NumFiles < 4294967296) :
    (self.Open L F).self.NumLumps =
        ((List.range db.NumFiles).filter (fun i =>
          !db.SzArEx_IsDir i && ((db.SzArEx_GetFileNameUtf16 i).length != 0))).length ∧
      (self.Open L F).self.NumLumps =
        db.NumFiles - ((List.range db.NumFiles).filter (fun i =>
          db.SzArEx_IsDir i || ((db.SzArEx_GetFileNameUtf16 i).length == 0))).length ∧
      (self.Open L F).self.VisibleLumps.length = (self.Open L F).self.NumLumps := by
  subst hdb
  obtain ⟨h1, h2⟩ := Open_directory L F self hres hN
  have h3 := Open_VisibleLumps L F self hres hN
  have hsplit := List.length_eq_length_filter_add (l := List.range
    (F7ZFile.Open.header L self).Archive.DB.NumFiles)
    (F7ZFile.Open.header L self).Archive.DB.isFile
  have hfun : (fun i => !(F7ZFile.Open.header L self).Archive.DB.isFile i) =
      (fun i => (F7ZFile.Open.header L self).Archive.DB.SzArEx_IsDir i ||
        (((F7ZFile.Open.header L self).Archive.DB.SzArEx_GetFileNameUtf16 i).length == 0)) := by
    funext i
    unfold CSzArEx.isFile
    cases (F7ZFile.Open.header L self).Archive.DB.SzArEx_IsDir i <;>
      cases hz : (((F7ZFile.Open.header L self).Archive.DB.SzArEx_GetFileNameUtf16 i).length
        == 0) <;> simp_all [bne]
  rw [hfun, List.length_range] at hsplit
  refine ⟨h2, ?_, ?_⟩
  · rw [h2]
    unfold CSzArEx.fileIndices
    have : (fun i => !(F7ZFile.Open.header L self).Archive.DB.SzArEx_IsDir i &&
        (((F7ZFile.Open.header L self).Archive.DB.SzArEx_GetFileNameUtf16 i).length != 0)) =
        (F7ZFile.Open.header L self).Archive.DB.isFile := rfl
    omega
  · rw [h3, h2, List.length_map]

/-- A concrete instance of `Open_NumLumps`: the test container has two visible lumps. -/
theorem Open_NumLumps_witness :
    (F7ZFile.Open.header testSz testFile).res = testSz.SZ_OK ∧
      testTable.NumFiles < 4294967296 ∧ (testFile.Open testSz stubFlags).self.NumLumps = 2 :=
  ⟨by decide, by decide,
    (Open_NumLumps testSz stubFlags testFile testTable (by decide) rfl (by decide)).1.trans
      (by decide)⟩

/-- C2: after a successful header parse the container indices recorded in `Position` of the
visible lumps (read as the `UInt32` file index `Extract` takes), in lump order, are exactly
the indices of the entries that are not directories and have a non-zero name length, a
strictly increasing sequence: no directory is a lump, no such entry is lost, and the skipped
entries do not change the recorded indices.  For a table of at most 2^31 entries the `int`
member `Position` is the index itself. -/
theorem Open_Positions {σ : Type} (L : Sz σ) (F : ELumpFlags) (self : F7ZFile σ)
    (db : CSzArEx) (hres : (F7ZFile.Open.header L self).res = L.SZ_OK)
    (hdb : (F7ZFile.Open.header L self).Archive.DB = db) (hN : db.NumFiles < 4294967296) :
    (self.Open L F).self.VisibleLumps.map (fun l => toUInt32 l.Position) =
        (List.range db.NumFiles).filter (fun i =>
          !db.SzArEx_IsDir i && ((db.SzArEx_GetFileNameUtf16 i).length != 0)) ∧
      ((self.Open L F).self.VisibleLumps.map (fun l => toUInt32 l.Position)).Pairwise
        (fun i j => i < j) ∧
      (∀ l ∈ (self.Open L F).self.VisibleLumps,
        toUInt32 l.Position < db.NumFiles ∧
        db.SzArEx_IsDir (toUInt32 l.Position) = false ∧
        (db.SzArEx_GetFileNameUtf16 (toUInt32 l.Position)).length ≠ 0) ∧
      (∀ i, i < db.NumFiles → db.SzArEx_IsDir i = false →
        (db.SzArEx_GetFileNameUtf16 i).length ≠ 0 →
        ∃ l ∈ (self.Open L F).self.VisibleLumps, toUInt32 l.Position = i) ∧
      (db.NumFiles ≤ 2147483648 →
        (self.Open L F).self.VisibleLumps.map (fun l => l.Position) =
          ((List.range db.NumFiles).filter (fun i =>
            !db.SzArEx_IsDir i && ((db.SzArEx_GetFileNameUtf16 i).length != 0))).map
            (fun (i : Nat) => (i : Int))) := by
  subst hdb
  have hmap := VisibleLumps_indices L F self hres hN
  refine ⟨hmap, ?_, ?_, ?_, ?_⟩
  · rw [hmap]; exact fileIndices_pairwise _
  · intro l hl
    obtain ⟨i, hi, -, hp⟩ := VisibleLumps_lumpAt L F self hres hN l hl
    rw [hp]
    exact (mem_fileIndices _ i).1 hi
  · intro i h1 h2 h3
    obtain ⟨l, hl, -, hp⟩ := lumpAt_mem_VisibleLumps L F self hres hN i h1 h2 h3
    exact ⟨l, hl, hp⟩
  · intro h31
    rw [Open_VisibleLumps L F self hres hN]
    exact map_lumpAt_Position F _ _ (fileIndices_lt_of _ _ h31)

/-- A concrete instance of `Open_Positions`: the lumps of the test container record the
indices 0 and 2. -/
theorem Open_Positions_witness :
    (F7ZFile.Open.header testSz testFile).res = testSz.SZ_OK ∧
      testTable.NumFiles < 4294967296 ∧
      (testFile.Open testSz stubFlags).self.VisibleLumps.map (fun l => toUInt32 l.Position) =
        [0, 2] :=
  ⟨by decide, by decide,
    (Open_Positions testSz stubFlags testFile testTable (by decide) rfl (by decide)).1.trans
      (by decide)⟩

/-- C3: after a successful header parse, the lump of an entry (the entry at the lump's
`Position`) whose name buffer holds only code units in 1..127 is given the entry's name with
`A`..`Z` lower-cased, every backslash replaced by `/` and every other character unchanged,
of the same length; the same holds for the name in front of a terminating zero code unit;
every non-directory entry with a non-zero name length has such a lump; and the entry
`SubDir\File.TXT` yields the lump name `subdir/file.txt`.  (The name buffer is resized to
`(unsigned)nameLength`, hence the bound on the length.) -/
theorem Open_Name_ascii {σ : Type} (L : Sz σ) (F : ELumpFlags) (self : F7ZFile σ)
    (db : CSzArEx) (hres : (F7ZFile.Open.header L self).res = L.SZ_OK)
    (hdb : (F7ZFile.Open.header L self).Archive.DB = db) (hN : db.NumFiles < 4294967296) :
    (∀ l ∈ (self.Open L F).self.VisibleLumps,
        (db.SzArEx_GetFileNameUtf16 (toUInt32 l.Position)).length < 4294967296 →
        (∀ u ∈ db.SzArEx_GetFileNameUtf16 (toUInt32 l.Position), 1 ≤ u ∧ u ≤ 127) →
        l.Name = (db.SzArEx_GetFileNameUtf16 (toUInt32 l.Position)).map normalizeChar ∧
        l.Name.length = (db.SzArEx_GetFileNameUtf16 (toUInt32 l.Position)).length) ∧
      (∀ l ∈ (self.Open L F).self.VisibleLumps, ∀ name : List Nat,
        db.SzArEx_GetFileNameUtf16 (toUInt32 l.Position) = name ++ [0] →
        (db.SzArEx_GetFileNameUtf16 (toUInt32 l.Position)).length < 4294967296 →
        (∀ u ∈ name, 1 ≤ u ∧ u ≤ 127) →
        l.Name = name.map normalizeChar ∧ l.Name.length = name.length) ∧
      (∀ i, i < db.NumFiles → db.SzArEx_IsDir i = false →
        (db.SzArEx_GetFileNameUtf16 i).length ≠ 0 →
        ∃ l ∈ (self.Open L F).self.VisibleLumps, toUInt32 l.Position = i) ∧
      ((F7ZFile.new "t" ⟨[], 0⟩ : F7ZFile Unit).Open
          (stubSz 0 subDirTable (fun _ => (0, []))) stubFlags).self.VisibleLumps.map
          (fun l => l.Name) =
        [[115, 117, 98, 100, 105, 114, 47, 102, 105, 108, 101, 46, 116, 120, 116]] := by
  subst hdb
  refine ⟨?_, ?_, ?_, by decide⟩
  · intro l hl
    obtain ⟨i, -, rfl, hp⟩ := VisibleLumps_lumpAt L F self hres hN l hl
    rw [hp]
    intro hlen hascii
    rw [lumpAt_Name F _ i hlen, ascii_name _ hascii]
    exact ⟨rfl, List.length_map _ _⟩
  · intro l hl name
    obtain ⟨i, -, rfl, hp⟩ := VisibleLumps_lumpAt L F self hres hN l hl
    rw [hp]
    intro hname hlen hascii
    have htw : (name ++ [0]).takeWhile (fun u => u % 256 != 0) = name := by
      rw [List.takeWhile_append_of_pos]
      · simp
      · intro u hu
        have := hascii u hu
        simp only [bne_iff_ne, ne_eq]
        omega
    rw [lumpAt_Name F _ i hlen, hname, htw]
    refine ⟨?_, List.length_map _ _⟩
    apply List.map_congr_left
    intro u hu
    have := hascii u hu
    rw [Nat.mod_eq_of_lt (by omega)]
  · intro i h1 h2 h3
    obtain ⟨l, hl, -, hp⟩ := lumpAt_mem_VisibleLumps L F self hres hN i h1 h2 h3
    exact ⟨l, hl, hp⟩

/-- A concrete instance of `Open_Name_ascii`, on the test container. -/
theorem Open_Name_ascii_witness :
    (F7ZFile.Open.header testSz testFile).res = testSz.SZ_OK ∧
      testTable.NumFiles < 4294967296 ∧
      ∀ l ∈ (testFile.Open testSz stubFlags).self.VisibleLumps,
        (testTable.SzArEx_GetFileNameUtf16 (toUInt32 l.Position)).length < 4294967296 →
        (∀ u ∈ testTable.SzArEx_GetFileNameUtf16 (toUInt32 l.Position), 1 ≤ u ∧ u ≤ 127) →
        l.Name = (testTable.SzArEx_GetFileNameUtf16 (toUInt32 l.Position)).map normalizeChar ∧
        l.Name.length = (testTable.SzArEx_GetFileNameUtf16 (toUInt32 l.Position)).length :=
  ⟨by decide, by decide,
    (Open_Name_ascii testSz stubFlags testFile testTable (by decide) rfl (by decide)).1⟩

/-- C10: after a successful header parse, the name handed to the lump of an entry (the entry
at the lump's `Position`) with arbitrary code units is the sequence of the low bytes of the
code units before the first one whose low byte is zero, each lower-cased and with a
backslash turned into `/`; so it is never longer than the entry's name; every non-directory
entry with a non-zero name length has a visible lump, and when the low byte of its first
code unit is zero the name of that lump is empty, as for the entry named U+0100.  (The name
buffer is resized to `(unsigned)nameLength`, hence the bound on the length.) -/
theorem Open_Name_truncated {σ : Type} (L : Sz σ) (F : ELumpFlags) (self : F7ZFile σ)
    (db : CSzArEx) (hres : (F7ZFile.Open.header L self).res = L.SZ_OK)
    (hdb : (F7ZFile.Open.header L self).Archive.DB = db) (hN : db.NumFiles < 4294967296) :
    (∀ l ∈ (self.Open L F).self.VisibleLumps,
        (db.SzArEx_GetFileNameUtf16 (toUInt32 l.Position)).length < 4294967296 →
        l.Name =
          ((db.SzArEx_GetFileNameUtf16 (toUInt32 l.Position)).takeWhile
            (fun u => u % 256 != 0)).map (fun u => normalizeChar (u % 256)) ∧
        l.Name.length ≤ (db.SzArEx_GetFileNameUtf16 (toUInt32 l.Position)).length) ∧
      (∀ i, i < db.NumFiles → db.SzArEx_IsDir i = false →
        (db.SzArEx_GetFileNameUtf16 i).length ≠ 0 →
        (db.SzArEx_GetFileNameUtf16 i).length < 4294967296 →
        ∃ l ∈ (self.Open L F).self.VisibleLumps, toUInt32 l.Position = i ∧
          (∀ u ∈ (db.SzArEx_GetFileNameUtf16 i).head?, u % 256 = 0 → l.Name = [])) ∧
      ((F7ZFile.new "t" ⟨[], 0⟩ : F7ZFile Unit).Open
          (stubSz 0 u0100Table (fun _ => (0, []))) stubFlags).self.VisibleLumps.map
          (fun l => (toUInt32 l.Position, l.Name)) = [(0, [])] := by
  subst hdb
  refine ⟨?_, ?_, by decide⟩
  · intro l hl
    obtain ⟨i, -, rfl, hp⟩ := VisibleLumps_lumpAt L F self hres hN l hl
    rw [hp]
    intro hlen
    rw [lumpAt_Name F _ i hlen]
    refine ⟨rfl, ?_⟩
    rw [List.length_map]
    exact (List.takeWhile_sublist _).length_le
  · intro i h1 h2 h3 hlen
    obtain ⟨l, hl, rfl, hp⟩ := lumpAt_mem_VisibleLumps L F self hres hN i h1 h2 h3
    refine ⟨_, hl, hp, ?_⟩
    intro u hu h0
    rw [lumpAt_Name F _ i hlen]
    cases hname : (F7ZFile.Open.header L self).Archive.DB.SzArEx_GetFileNameUtf16 i with
    | nil => rfl
    | cons v vs =>
      rw [hname] at hu
      have hv : v = u := by simpa using hu
      subst hv
      have hb : (v % 256 != 0) = false := by simp [h0]
      rw [List.takeWhile_cons, hb]
      rfl

/-- A concrete instance of `Open_Name_truncated`, on the table with the entry U+0100. -/
theorem Open_Name_truncated_witness :
    (F7ZFile.Open.header (stubSz 0 u0100Table (fun _ => (0, []))) testFile).res =
        (stubSz 0 u0100Table (fun _ => (0, []))).SZ_OK ∧
      u0100Table.NumFiles < 4294967296 ∧
      ∀ l ∈ (testFile.Open (stubSz 0 u0100Table (fun _ => (0, []))) stubFlags).self.VisibleLumps,
        (u0100Table.SzArEx_GetFileNameUtf16 (toUInt32 l.Position)).length < 4294967296 →
        l.Name =
          ((u0100Table.SzArEx_GetFileNameUtf16 (toUInt32 l.Position)).takeWhile
            (fun u => u % 256 != 0)).map (fun u => normalizeChar (u % 256)) ∧
        l.Name.length ≤ (u0100Table.SzArEx_GetFileNameUtf16 (toUInt32 l.Position)).length :=
  ⟨by decide, by decide,
    (Open_Name_truncated (stubSz 0 u0100Table (fun _ => (0, []))) stubFlags testFile u0100Table
      (by decide) rfl (by decide)).1⟩

/-! ## The return value of `Open` -/

theorem Open_loop (F : ELumpFlags) (db : CSzArEx) :
    (List.range db.NumFiles).foldl (F7ZFile.Open.body F db) { Lumps := [], skipped := 0 } =
      { Lumps := db.fileIndices.map (lumpAt F db)
        skipped := toInt32 ((db.NumFiles - db.fileIndices.length : Nat) : Int) } :=
  loop_invariant F db db.NumFiles

theorem Open_numLumps (db : CSzArEx) (hN : db.NumFiles < 4294967296) :
    toUInt32 ((db.NumFiles : Int) -
      toInt32 ((db.NumFiles - db.fileIndices.length : Nat) : Int)) = db.fileIndices.length :=
  numLumps_eq db hN

theorem Open_of_nil {σ : Type} (L : Sz σ) (F : ELumpFlags) (self : F7ZFile σ)
    (hres : (F7ZFile.Open.header L self).res = L.SZ_OK)
    (hN : (F7ZFile.Open.header L self).Archive.DB.NumFiles < 4294967296)
    (hnil : (F7ZFile.Open.header L self).Archive.DB.fileIndices = []) :
    self.Open L F =
      { ret := true
        self := { self with Reader := (F7ZFile.Open.header L self).File, NumLumps := 0,
                            Lumps := [], Archive := some (F7ZFile.Open.header L self).Archive }
        Printf := [] } := by
  have hn := Open_numLumps _ hN
  unfold F7ZFile.Open
  simp only [hres, ne_eq, not_true_eq_false, if_false, Open_loop, hn]
  simp only [hnil, List.length_nil, List.map_nil, gt_iff_lt, lt_self_iff_false, if_false]

theorem Open_of_cons {σ : Type} (L : Sz σ) (F : ELumpFlags) (self : F7ZFile σ)
    (hres : (F7ZFile.Open.header L self).res = L.SZ_OK)
    (hN : (F7ZFile.Open.header L self).Archive.DB.NumFiles < 4294967296)
    (i : Nat) (rest : List Nat)
    (hcons : (F7ZFile.Open.header L self).Archive.DB.fileIndices = i :: rest) :
    self.Open L F =
      { ret := decide (((F7ZFile.Open.header L self).Archive.Extract L
          (F7ZFile.Open.header L self).File i
          (CharBuf.alloc (toUInt32 (lumpAt F (F7ZFile.Open.header L self).Archive.DB
            i).LumpSize))).res = L.SZ_OK)
        self := { self with
          Reader := ((F7ZFile.Open.header L self).Archive.Extract L
            (F7ZFile.Open.header L self).File i
            (CharBuf.alloc (toUInt32 (lumpAt F (F7ZFile.Open.header L self).Archive.DB
              i).LumpSize))).File
          NumLumps := rest.length + 1
          Lumps := (i :: rest).map (lumpAt F (F7ZFile.Open.header L self).Archive.DB)
          Archive := some ((F7ZFile.Open.header L self).Archive.Extract L
            (F7ZFile.Open.header L self).File i
            (CharBuf.alloc (toUInt32 (lumpAt F (F7ZFile.Open.header L self).Archive.DB
              i).LumpSize))).Archive }
        Printf := if ((F7ZFile.Open.header L self).Archive.Extract L
            (F7ZFile.Open.header L self).File i
            (CharBuf.alloc (toUInt32 (lumpAt F (F7ZFile.Open.header L self).Archive.DB
              i).LumpSize))).res = L.SZ_OK then [] else [.unsupported7z self.FileName] } := by
  have hn := Open_numLumps _ hN
  have hi : i < 4294967296 :=
    fileIndices_lt_of _ _ (Nat.le_of_lt hN) i (by rw [hcons]; exact List.mem_cons_self _ _)
  have hp := lumpAt_index F (F7ZFile.Open.header L self).Archive.DB i hi
  unfold F7ZFile.Open
  simp only [hres, ne_eq, not_true_eq_false, if_false, Open_loop, hn]
  simp only [hcons, List.length_cons, List.map_cons, List.headD_cons, gt_iff_lt,
    Nat.zero_lt_succ, if_true, hp]
  by_cases hr : ((F7ZFile.Open.header L self).Archive.Extract L
      (F7ZFile.Open.header L self).File i
      (CharBuf.alloc (toUInt32 (lumpAt F (F7ZFile.Open.header L self).Archive.DB
        i).LumpSize))).res = L.SZ_OK
  · simp only [hr, not_true_eq_false, if_false, if_true, decide_True]
  · have hr2 : ¬ L.SZ_OK = ((F7ZFile.Open.header L self).Archive.Extract L
        (F7ZFile.Open.header L self).File i
        (CharBuf.alloc (toUInt32 (lumpAt F (F7ZFile.Open.header L self).Archive.DB
          i).LumpSize))).res := fun e => hr e.symm
    simp only [hr, hr2, not_false_eq_true, if_true, if_false, decide_False]

theorem header_Extracts {σ : Type} (L : Sz σ) (self : F7ZFile σ) :
    (F7ZFile.Open.header L self).Archive.Extracts = [] := rfl

theorem header_Archive {σ : Type} (L : Sz σ) (self : F7ZFile σ) :
    (F7ZFile.Open.header L self).Archive.BlockIndex = 0xFFFFFFFF ∧
      (F7ZFile.Open.header L self).Archive.OutBuffer = none ∧
      (F7ZFile.Open.header L self).Archive.OutBufferSize = 0 := ⟨rfl, rfl, rfl⟩

theorem Extract_log {σ : Type} (L : Sz σ) (a : C7zArchive σ) (file : FileReader)
    (file_index : Nat) (buffer : CharBuf) :
    (a.Extract L file file_index buffer).Archive.Extracts =
        a.Extracts ++ [(file_index, (a.Extract L file file_index buffer).res)] ∧
      (a.Extract L file file_index buffer).res =
        (L.SzArEx_Extract a.DB a.LookStream file file_index a.BlockIndex a.OutBuffer
          a.OutBufferSize).res := by
  unfold C7zArchive.Extract
  simp only
  split <;> exact ⟨rfl, rfl⟩

/-- C4: after a successful header parse, if there is a visible lump then `Open` makes exactly
one `Extract` call, for the file index in `Position` of `Lumps[0]`, and returns true if and
only if that call (the engine's `SzArEx_Extract` on the freshly parsed handle) returns
`SZ_OK`; if there is no visible lump it makes no `Extract` call and returns true.  In either
case, also when it returns false, the directory is the fully built one. -/
theorem Open_validation {σ : Type} (L : Sz σ) (F : ELumpFlags) (self : F7ZFile σ)
    (db : CSzArEx) (hres : (F7ZFile.Open.header L self).res = L.SZ_OK)
    (hdb : (F7ZFile.Open.header L self).Archive.DB = db) (hN : db.NumFiles < 4294967296) :
    ((self.Open L F).self.VisibleLumps ≠ [] →
        ∃ a l0 res, (self.Open L F).self.Archive = some a ∧
          (self.Open L F).self.VisibleLumps.head? = some l0 ∧
          a.Extracts = [(toUInt32 l0.Position, res)] ∧
          res = (L.SzArEx_Extract db (F7ZFile.Open.header L self).Archive.LookStream
            (F7ZFile.Open.header L self).File (toUInt32 l0.Position)
            (F7ZFile.Open.header L self).Archive.BlockIndex
            (F7ZFile.Open.header L self).Archive.OutBuffer
            (F7ZFile.Open.header L self).Archive.OutBufferSize).res ∧
          ((self.Open L F).ret = true ↔ res = L.SZ_OK)) ∧
      ((self.Open L F).self.VisibleLumps = [] →
        ∃ a, (self.Open L F).self.Archive = some a ∧ a.Extracts = [] ∧
          (self.Open L F).ret = true) ∧
      ((self.Open L F).self.VisibleLumps.map (fun l => toUInt32 l.Position) =
          (List.range db.NumFiles).filter (fun i =>
            !db.SzArEx_IsDir i && ((db.SzArEx_GetFileNameUtf16 i).length != 0)) ∧
        (self.Open L F).self.NumLumps = (self.Open L F).self.VisibleLumps.length) := by
  subst hdb
  have hv := Open_VisibleLumps L F self hres hN
  have hd := Open_directory L F self hres hN
  refine ⟨?_, ?_, VisibleLumps_indices L F self hres hN, ?_⟩
  · intro hne
    cases hc : (F7ZFile.Open.header L self).Archive.DB.fileIndices with
    | nil => rw [hv, hc] at hne; exact absurd rfl hne
    | cons i rest =>
      have hi : i < 4294967296 :=
        fileIndices_lt_of _ _ (Nat.le_of_lt hN) i (by rw [hc]; exact List.mem_cons_self _ _)
      have hp := lumpAt_index F (F7ZFile.Open.header L self).Archive.DB i hi
      have hlog := Extract_log L (F7ZFile.Open.header L self).Archive
        (F7ZFile.Open.header L self).File i
        (CharBuf.alloc (toUInt32 (lumpAt F (F7ZFile.Open.header L self).Archive.DB i).LumpSize))
      rw [hv, hc, Open_of_cons L F self hres hN i rest hc]
      refine ⟨_, lumpAt F _ i, ((F7ZFile.Open.header L self).Archive.Extract L
        (F7ZFile.Open.header L self).File i
        (CharBuf.alloc (toUInt32 (lumpAt F (F7ZFile.Open.header L self).Archive.DB
          i).LumpSize))).res, rfl, rfl, ?_, ?_, ?_⟩
      · rw [hp, hlog.1, header_Extracts]; rfl
      · rw [hp]; exact hlog.2
      · exact decide_eq_true_iff
  · intro hnil
    have hc : (F7ZFile.Open.header L self).Archive.DB.fileIndices = [] := by
      rw [hv] at hnil
      exact List.map_eq_nil_iff.1 hnil
    rw [Open_of_nil L F self hres hN hc]
    exact ⟨_, rfl, header_Extracts L self, rfl⟩
  · rw [hv, hd.2, List.length_map]

/-- A concrete instance of `Open_validation`, on the test container. -/
theorem Open_validation_witness :
    (F7ZFile.Open.header testSz testFile).res = testSz.SZ_OK ∧
      testTable.NumFiles < 4294967296 ∧
      ((testFile.Open testSz stubFlags).self.VisibleLumps = [] →
        ∃ a, (testFile.Open testSz stubFlags).self.Archive = some a ∧ a.Extracts = [] ∧
          (testFile.Open testSz stubFlags).ret = true) :=
  ⟨by decide, by decide,
    (Open_validation testSz stubFlags testFile testTable (by decide) rfl (by decide)).2.1⟩

/-- C8: a call of `Open` that returns false has sent exactly one diagnostic and a call that
returns true has sent none; when the header parse fails `Open` returns false, `Archive` is
`NULL`, and the diagnostic is chosen by the result code: `SZ_ERROR_UNSUPPORTED` gives
"Decoder does not support this archive", `SZ_ERROR_MEM` "Cannot allocate memory",
`SZ_ERROR_CRC` "CRC error", and any other code "error #%d" with that code.  (The three named
codes of `7z.h` are taken to be distinct.) -/
theorem Open_diagnostics {σ : Type} (L : Sz σ) (F : ELumpFlags) (self : F7ZFile σ)
    (hcodes : L.SZ_ERROR_MEM ≠ L.SZ_ERROR_UNSUPPORTED ∧ L.SZ_ERROR_CRC ≠ L.SZ_ERROR_UNSUPPORTED ∧
      L.SZ_ERROR_CRC ≠ L.SZ_ERROR_MEM) :
    ((self.Open L F).ret = false → (self.Open L F).Printf.length = 1) ∧
      ((self.Open L F).ret = true → (self.Open L F).Printf = []) ∧
      ((F7ZFile.Open.header L self).res ≠ L.SZ_OK →
        (self.Open L F).ret = false ∧ (self.Open L F).self.Archive = none ∧
        ((F7ZFile.Open.header L self).res = L.SZ_ERROR_UNSUPPORTED →
          (self.Open L F).Printf = [.decoderDoesNotSupport self.FileName]) ∧
        ((F7ZFile.Open.header L self).res = L.SZ_ERROR_MEM →
          (self.Open L F).Printf = [.cannotAllocateMemory]) ∧
        ((F7ZFile.Open.header L self).res = L.SZ_ERROR_CRC →
          (self.Open L F).Printf = [.crcError]) ∧
        ((F7ZFile.Open.header L self).res ≠ L.SZ_ERROR_UNSUPPORTED →
          (F7ZFile.Open.header L self).res ≠ L.SZ_ERROR_MEM →
          (F7ZFile.Open.header L self).res ≠ L.SZ_ERROR_CRC →
          (self.Open L F).Printf = [.errorNumber (F7ZFile.Open.header L self).res])) := by
  obtain ⟨h1, h2, h3⟩ := hcodes
  refine ⟨?_, ?_, ?_⟩
  · unfold F7ZFile.Open
    simp only
    split_ifs <;> simp
  · unfold F7ZFile.Open
    simp only
    split_ifs <;> simp
  · intro hres
    unfold F7ZFile.Open
    simp only [hres, ne_eq, not_false_eq_true, if_true, true_and]
    refine ⟨?_, ?_, ?_, ?_⟩
    · intro h; simp [h]
    · intro h; simp [h, h1]
    · intro h; simp [h, h2, h3]
    · intro a b c; simp [a, b, c]

/-- A concrete instance of `Open_diagnostics`: with the stub engine failing the header parse
with `SZ_ERROR_CRC`, a call that returns false has sent one diagnostic. -/
theorem Open_diagnostics_witness :
    ((stubSz 3 testTable (fun _ => (0, []))).SZ_ERROR_MEM ≠
        (stubSz 3 testTable (fun _ => (0, []))).SZ_ERROR_UNSUPPORTED ∧
      (stubSz 3 testTable (fun _ => (0, []))).SZ_ERROR_CRC ≠
        (stubSz 3 testTable (fun _ => (0, []))).SZ_ERROR_UNSUPPORTED ∧
      (stubSz 3 testTable (fun _ => (0, []))).SZ_ERROR_CRC ≠
        (stubSz 3 testTable (fun _ => (0, []))).SZ_ERROR_MEM) ∧
      ((testFile.Open (stubSz 3 testTable (fun _ => (0, []))) stubFlags).ret = false →
        (testFile.Open (stubSz 3 testTable (fun _ => (0, []))) stubFlags).Printf.length = 1) :=
  ⟨by decide, (Open_diagnostics (stubSz 3 testTable (fun _ => (0, []))) stubFlags testFile
    (by decide)).1⟩

/-! ## Sizes and flags -/

/-- C9, the claim as stated fails: the lump of an entry of 2^31 bytes has the `LumpSize`
-2^31, not the reported size. -/
theorem Open_LumpSize_counterexample :
    (F7ZFile.Open.header (stubSz 0 bigTable (fun _ => (0, []))) testFile).res =
        (stubSz 0 bigTable (fun _ => (0, []))).SZ_OK ∧
      (testFile.Open (stubSz 0 bigTable (fun _ => (0, []))) stubFlags).self.VisibleLumps.map
          (fun l => (l.LumpSize, bigTable.SzArEx_GetFileSize (toUInt32 l.Position))) =
        [(-2147483648, 2147483648)] ∧
      ¬ (∀ l ∈ (testFile.Open (stubSz 0 bigTable (fun _ => (0, []))) stubFlags).self.VisibleLumps,
          l.LumpSize = (bigTable.SzArEx_GetFileSize (toUInt32 l.Position) : Int)) := by
  decide

/-- C9, amended: after a successful header parse, `LumpSize` of every visible lump is the
size the container reports for the entry at the lump's `Position` converted to a signed
32-bit `int` (its low 32 bits in two's complement), which is the reported size itself
whenever that is below 2^31; and the `Flags` `Open` assigns are exactly
`LUMPF_FULLPATH|LUMPF_COMPRESSED`. -/
theorem Open_LumpSize_Flags {σ : Type} (L : Sz σ) (F : ELumpFlags) (self : F7ZFile σ)
    (db : CSzArEx) (hres : (F7ZFile.Open.header L self).res = L.SZ_OK)
    (hdb : (F7ZFile.Open.header L self).Archive.DB = db) (hN : db.NumFiles < 4294967296) :
    ∀ l ∈ (self.Open L F).self.VisibleLumps,
      l.LumpSize = toInt32 (db.SzArEx_GetFileSize (toUInt32 l.Position)) ∧
      (db.SzArEx_GetFileSize (toUInt32 l.Position) < 2147483648 →
        l.LumpSize = (db.SzArEx_GetFileSize (toUInt32 l.Position) : Int)) ∧
      l.Flags = F.LUMPF_FULLPATH ||| F.LUMPF_COMPRESSED := by
  subst hdb
  intro l hl
  obtain ⟨i, -, rfl, hp⟩ := VisibleLumps_lumpAt L F self hres hN l hl
  rw [hp, lumpAt_LumpSize, lumpAt_Flags]
  exact ⟨rfl, fun h => toInt32_of_lt _ h, rfl⟩

/-- A concrete instance of `Open_LumpSize_Flags`, on the test container. -/
theorem Open_LumpSize_Flags_witness :
    (F7ZFile.Open.header testSz testFile).res = testSz.SZ_OK ∧
      testTable.NumFiles < 4294967296 ∧
      ∀ l ∈ (testFile.Open testSz stubFlags).self.VisibleLumps,
        l.LumpSize = toInt32 (testTable.SzArEx_GetFileSize (toUInt32 l.Position)) ∧
        (testTable.SzArEx_GetFileSize (toUInt32 l.Position) < 2147483648 →
          l.LumpSize = (testTable.SzArEx_GetFileSize (toUInt32 l.Position) : Int)) ∧
        l.Flags = stubFlags.LUMPF_FULLPATH ||| stubFlags.LUMPF_COMPRESSED :=
  ⟨by decide, by decide,
    Open_LumpSize_Flags testSz stubFlags testFile testTable (by decide) rfl (by decide)⟩

/-! ## `Check7Z` -/

/-- C5, the claim as stated fails: on a source of three bytes positioned at offset 2, whose
first bytes are not the signature, `Check7Z` returns `NULL` and leaves the position at 2. -/
theorem Check7Z_counterexample :
    shortReader.Data.take testSz.k7zSignatureSize ≠ testSz.k7zSignature ∧
      (Check7Z testSz stubFlags "short.7z" shortReader).file = some ⟨[55, 122, 188], 2⟩ ∧
      ¬ ((Check7Z testSz stubFlags "short.7z" shortReader).file.map (fun f => f.Pos) =
        some 0) := by
  decide

/-- C5, amended: for every byte source, of any length and at any stream position, whose
first `k7zSignatureSize` bytes are not the signature, `Check7Z` returns `NULL`, constructs
and opens no archive and sends no diagnostic; when the source is at least
`k7zSignatureSize` bytes long it leaves the stream position at offset 0, and when it is
shorter it does not touch the source, whose position stays where it was. -/
theorem Check7Z_no_match {σ : Type} (L : Sz σ) (F : ELumpFlags) (filename : String)
    (file : FileReader) (hsig : file.Data.take L.k7zSignatureSize ≠ L.k7zSignature) :
    (Check7Z L F filename file).ret = none ∧
      (Check7Z L F filename file).constructed = false ∧
      (Check7Z L F filename file).Printf = [] ∧
      (L.k7zSignatureSize ≤ file.GetLength →
        (Check7Z L F filename file).file = some { file with Pos := 0 }) ∧
      (file.GetLength < L.k7zSignatureSize →
        (Check7Z L F filename file).file = some file) := by
  have hhead : ((file.Seek 0).Read L.k7zSignatureSize).1 =
      file.Data.take L.k7zSignatureSize := by
    simp [FileReader.Seek, FileReader.Read]
  by_cases hlen : file.GetLength ≥ L.k7zSignatureSize
  · have e : Check7Z L F filename file =
        { ret := none, file := some { file with Pos := 0 }, constructed := false,
          Printf := [] } := by
      unfold Check7Z
      simp only [hlen, if_true, hhead, hsig, if_false]
      rfl
    rw [e]
    exact ⟨rfl, rfl, rfl, fun _ => rfl, fun h => absurd h (Nat.not_lt.2 hlen)⟩
  · have e : Check7Z L F filename file =
        { ret := none, file := some file, constructed := false, Printf := [] } := by
      unfold Check7Z
      simp only [hlen, if_false]
    rw [e]
    exact ⟨rfl, rfl, rfl, fun h => absurd h hlen, fun _ => rfl⟩

/-- A concrete instance of `Check7Z_no_match`, on the short reader. -/
theorem Check7Z_no_match_witness :
    shortReader.Data.take testSz.k7zSignatureSize ≠ testSz.k7zSignature ∧
      (Check7Z testSz stubFlags "short.7z" shortReader).constructed = false ∧
      (shortReader.GetLength < testSz.k7zSignatureSize →
        (Check7Z testSz stubFlags "short.7z" shortReader).file = some shortReader) :=
  ⟨by decide,
    (Check7Z_no_match testSz stubFlags "short.7z" shortReader (by decide)).2.1,
    (Check7Z_no_match testSz stubFlags "short.7z" shortReader (by decide)).2.2.2.2⟩

/-! ## `FillCache` -/

theorem FillCache_of_neg {σ : Type} (L : Sz σ) (lump : F7ZLump) (Archive : C7zArchive σ)
    (Reader : FileReader) (hneg : lump.LumpSize < 0) :
    lump.FillCache L Archive Reader =
      { outcome := .bad_array_new_length, lump := lump, Archive := Archive,
        Reader := Reader } := by
  unfold F7ZLump.FillCache
  simp only [hneg, if_true]

theorem FillCache_of_ok {σ : Type} (L : Sz σ) (lump : F7ZLump) (Archive : C7zArchive σ)
    (Reader : FileReader) (hneg : ¬ lump.LumpSize < 0)
    (hok : (Archive.Extract L Reader (toUInt32 lump.Position)
      (CharBuf.alloc lump.LumpSize.toNat)).res = L.SZ_OK) :
    lump.FillCache L Archive Reader =
      { outcome := .returned 1
        lump := { lump with
          Cache := some (Archive.Extract L Reader (toUInt32 lump.Position)
            (CharBuf.alloc lump.LumpSize.toNat)).buffer
          RefCount := 1 }
        Archive := (Archive.Extract L Reader (toUInt32 lump.Position)
          (CharBuf.alloc lump.LumpSize.toNat)).Archive
        Reader := (Archive.Extract L Reader (toUInt32 lump.Position)
          (CharBuf.alloc lump.LumpSize.toNat)).File } := by
  unfold F7ZLump.FillCache
  simp only [hneg, if_false, hok, ne_eq, not_true_eq_false]

theorem FillCache_of_error {σ : Type} (L : Sz σ) (lump : F7ZLump) (Archive : C7zArchive σ)
    (Reader : FileReader) (hneg : ¬ lump.LumpSize < 0)
    (herr : (Archive.Extract L Reader (toUInt32 lump.Position)
      (CharBuf.alloc lump.LumpSize.toNat)).res ≠ L.SZ_OK) :
    lump.FillCache L Archive Reader =
      { outcome := .FileSystemException (Archive.Extract L Reader (toUInt32 lump.Position)
          (CharBuf.alloc lump.LumpSize.toNat)).res
        lump := { lump with
          Cache := some (Archive.Extract L Reader (toUInt32 lump.Position)
            (CharBuf.alloc lump.LumpSize.toNat)).buffer }
        Archive := (Archive.Extract L Reader (toUInt32 lump.Position)
          (CharBuf.alloc lump.LumpSize.toNat)).Archive
        Reader := (Archive.Extract L Reader (toUInt32 lump.Position)
          (CharBuf.alloc lump.LumpSize.toNat)).File } := by
  unfold F7ZLump.FillCache
  simp only [hneg, if_false, herr, ne_eq, not_false_eq_true, if_true]

theorem Extract_buffer_size {σ : Type} (L : Sz σ) (a : C7zArchive σ) (file : FileReader)
    (file_index : Nat) (buffer : CharBuf) :
    (a.Extract L file file_index buffer).buffer.size = buffer.size := by
  unfold C7zArchive.Extract
  simp only
  split <;> rfl

theorem append_singleton_ne_self {α : Type} (xs : List α) (x : α) : xs ≠ xs ++ [x] := by
  intro h
  have := congrArg List.length h
  simp at this

theorem append_singleton_inj {α : Type} (xs : List α) (x y : α)
    (h : xs ++ [x] = xs ++ [y]) : x = y := by
  have h2 := List.append_cancel_left h
  simpa using h2

/-- C7: `FillCache` throws the `FileSystemException` with the code `c` if and only if the
`Extract` call it makes for the lump's `Position` returns `c` and `c` is not `SZ_OK`; when
that call returns `SZ_OK`, `FillCache` does not throw: it returns 1, the reference count is
one and the cache slot holds a block of the lump's declared size.  The result of the
`Extract` call is the engine's, and the call is made whenever the declared size is not
negative. -/
theorem FillCache_outcome {σ : Type} (L : Sz σ) (lump : F7ZLump) (Archive : C7zArchive σ)
    (Reader : FileReader) :
    (∀ c : Int, (lump.FillCache L Archive Reader).outcome = .FileSystemException c ↔
        c ≠ L.SZ_OK ∧ (lump.FillCache L Archive Reader).Archive.Extracts =
          Archive.Extracts ++ [(toUInt32 lump.Position, c)]) ∧
      ((lump.FillCache L Archive Reader).Archive.Extracts =
          Archive.Extracts ++ [(toUInt32 lump.Position, L.SZ_OK)] →
        (lump.FillCache L Archive Reader).outcome = .returned 1 ∧
        (lump.FillCache L Archive Reader).lump.RefCount = 1 ∧
        ∃ buf, (lump.FillCache L Archive Reader).lump.Cache = some buf ∧
          (buf.size : Int) = lump.LumpSize) ∧
      (0 ≤ lump.LumpSize →
        (lump.FillCache L Archive Reader).Archive.Extracts =
          Archive.Extracts ++ [(toUInt32 lump.Position,
            (L.SzArEx_Extract Archive.DB Archive.LookStream Reader (toUInt32 lump.Position)
              Archive.BlockIndex Archive.OutBuffer Archive.OutBufferSize).res)]) := by
  have hlog := Extract_log L Archive Reader (toUInt32 lump.Position)
    (CharBuf.alloc lump.LumpSize.toNat)
  have hsize := Extract_buffer_size L Archive Reader (toUInt32 lump.Position)
    (CharBuf.alloc lump.LumpSize.toNat)
  by_cases hneg : lump.LumpSize < 0
  · rw [FillCache_of_neg L lump Archive Reader hneg]
    refine ⟨fun c => ⟨fun h => ?_, fun h => ?_⟩, fun h => ?_, fun h => ?_⟩
    · exact FillOutcome.noConfusion h
    · exact absurd h.2 (append_singleton_ne_self _ _)
    · exact absurd h (append_singleton_ne_self _ _)
    · exact absurd hneg (Int.not_lt.2 h)
  · by_cases hok : (Archive.Extract L Reader (toUInt32 lump.Position)
        (CharBuf.alloc lump.LumpSize.toNat)).res = L.SZ_OK
    · rw [FillCache_of_ok L lump Archive Reader hneg hok]
      refine ⟨fun c => ⟨fun h => ?_, fun h => ?_⟩, fun _ => ⟨rfl, rfl, _, rfl, ?_⟩, fun _ => ?_⟩
      · exact FillOutcome.noConfusion h
      · have h2 : (Archive.Extract L Reader (toUInt32 lump.Position)
            (CharBuf.alloc lump.LumpSize.toNat)).Archive.Extracts =
            Archive.Extracts ++ [(toUInt32 lump.Position, c)] := h.2
        rw [hlog.1, hok] at h2
        have h3 := append_singleton_inj _ _ _ h2
        exact absurd (congrArg Prod.snd h3).symm h.1
      · rw [hsize]
        show ((lump.LumpSize.toNat : Nat) : Int) = lump.LumpSize
        exact Int.toNat_of_nonneg (Int.not_lt.1 hneg)
      · show (Archive.Extract L Reader (toUInt32 lump.Position)
            (CharBuf.alloc lump.LumpSize.toNat)).Archive.Extracts = _
        rw [hlog.1, hlog.2]
    · rw [FillCache_of_error L lump Archive Reader hneg hok]
      refine ⟨fun c => ⟨fun h => ?_, fun h => ?_⟩, fun h => ?_, fun _ => ?_⟩
      · have hc : (Archive.Extract L Reader (toUInt32 lump.Position)
            (CharBuf.alloc lump.LumpSize.toNat)).res = c := FillOutcome.FileSystemException.inj h
        refine ⟨fun e => hok (hc.trans e), ?_⟩
        show (Archive.Extract L Reader (toUInt32 lump.Position)
            (CharBuf.alloc lump.LumpSize.toNat)).Archive.Extracts = _
        rw [hlog.1, hc]
      · have h2 : (Archive.Extract L Reader (toUInt32 lump.Position)
            (CharBuf.alloc lump.LumpSize.toNat)).Archive.Extracts =
            Archive.Extracts ++ [(toUInt32 lump.Position, c)] := h.2
        rw [hlog.1] at h2
        have h3 := congrArg Prod.snd (append_singleton_inj _ _ _ h2)
        show FillOutcome.FileSystemException _ = FillOutcome.FileSystemException c
        exact congrArg FillOutcome.FileSystemException h3
      · have h2 : (Archive.Extract L Reader (toUInt32 lump.Position)
            (CharBuf.alloc lump.LumpSize.toNat)).Archive.Extracts =
            Archive.Extracts ++ [(toUInt32 lump.Position, L.SZ_OK)] := h
        rw [hlog.1] at h2
        exact absurd (congrArg Prod.snd (append_singleton_inj _ _ _ h2)) hok
      · show (Archive.Extract L Reader (toUInt32 lump.Position)
            (CharBuf.alloc lump.LumpSize.toNat)).Archive.Extracts = _
        rw [hlog.1, hlog.2]

/-- A call of `FillCache` on a lump of non-negative size makes one `Extract` call, for its
`Position` and into a fresh block of the declared size, and stores that block. -/
theorem FillCache_call {σ : Type} (L : Sz σ) (lump : F7ZLump) (Archive : C7zArchive σ)
    (Reader : FileReader) (hneg : ¬ lump.LumpSize < 0) :
    (lump.FillCache L Archive Reader).Archive.Extracts =
        Archive.Extracts ++ [(toUInt32 lump.Position,
          (Archive.Extract L Reader (toUInt32 lump.Position)
            (CharBuf.alloc lump.LumpSize.toNat)).res)] ∧
      (lump.FillCache L Archive Reader).lump.Cache =
        some (Archive.Extract L Reader (toUInt32 lump.Position)
          (CharBuf.alloc lump.LumpSize.toNat)).buffer := by
  have hlog := Extract_log L Archive Reader (toUInt32 lump.Position)
    (CharBuf.alloc lump.LumpSize.toNat)
  by_cases hok : (Archive.Extract L Reader (toUInt32 lump.Position)
      (CharBuf.alloc lump.LumpSize.toNat)).res = L.SZ_OK
  · rw [FillCache_of_ok L lump Archive Reader hneg hok]
    exact ⟨hlog.1, rfl⟩
  · rw [FillCache_of_error L lump Archive Reader hneg hok]
    exact ⟨hlog.1, rfl⟩

/-- C6, the claim as stated fails: on a lump whose extraction succeeds, two calls of
`FillCache` in a row both return 1 and make two `Extract` calls, not one. -/
theorem FillCache_twice_counterexample :
    (testLump.FillCache testSz (F7ZFile.Open.header testSz testFile).Archive
        (F7ZFile.Open.header testSz testFile).File).outcome = .returned 1 ∧
      ((testLump.FillCache testSz (F7ZFile.Open.header testSz testFile).Archive
        (F7ZFile.Open.header testSz testFile).File).lump.FillCache testSz
        (testLump.FillCache testSz (F7ZFile.Open.header testSz testFile).Archive
          (F7ZFile.Open.header testSz testFile).File).Archive
        (testLump.FillCache testSz (F7ZFile.Open.header testSz testFile).Archive
          (F7ZFile.Open.header testSz testFile).File).Reader).Archive.Extracts =
        [(0, 0), (0, 0)] ∧
      ¬ (((testLump.FillCache testSz (F7ZFile.Open.header testSz testFile).Archive
        (F7ZFile.Open.header testSz testFile).File).lump.FillCache testSz
        (testLump.FillCache testSz (F7ZFile.Open.header testSz testFile).Archive
          (F7ZFile.Open.header testSz testFile).File).Archive
        (testLump.FillCache testSz (F7ZFile.Open.header testSz testFile).Archive
          (F7ZFile.Open.header testSz testFile).File).Reader).Archive.Extracts.length = 1) := by
  decide

/-- C6, amended: `FillCache` does not look at the cache slot.  When a first call returns,
it has made exactly one `Extract` call, for the lump's `Position`, and a second call in a
row makes exactly one more, for the same `Position`, two in total; the second call stores
in the cache slot a newly allocated block of the declared size holding the output of its
own extraction, so the cached contents are the same as before exactly when that extraction
yields the same block. -/
theorem FillCache_twice {σ : Type} (L : Sz σ) (lump : F7ZLump) (Archive : C7zArchive σ)
    (Reader : FileReader)
    (h1 : (lump.FillCache L Archive Reader).outcome = .returned 1) :
    (lump.FillCache L Archive Reader).Archive.Extracts =
        Archive.Extracts ++ [(toUInt32 lump.Position, L.SZ_OK)] ∧
      (∃ res2 : Int,
        ((lump.FillCache L Archive Reader).lump.FillCache L
          (lump.FillCache L Archive Reader).Archive
          (lump.FillCache L Archive Reader).Reader).Archive.Extracts =
          Archive.Extracts ++
            [(toUInt32 lump.Position, L.SZ_OK), (toUInt32 lump.Position, res2)]) ∧
      ((lump.FillCache L Archive Reader).lump.FillCache L
          (lump.FillCache L Archive Reader).Archive
          (lump.FillCache L Archive Reader).Reader).Archive.Extracts.length =
        Archive.Extracts.length + 2 ∧
      ((lump.FillCache L Archive Reader).lump.FillCache L
          (lump.FillCache L Archive Reader).Archive
          (lump.FillCache L Archive Reader).Reader).lump.Cache =
        some ((lump.FillCache L Archive Reader).Archive.Extract L
          (lump.FillCache L Archive Reader).Reader (toUInt32 lump.Position)
          (CharBuf.alloc lump.LumpSize.toNat)).buffer := by
  have hneg : ¬ lump.LumpSize < 0 := by
    intro hneg
    rw [FillCache_of_neg L lump Archive Reader hneg] at h1
    exact FillOutcome.noConfusion h1
  have hok : (Archive.Extract L Reader (toUInt32 lump.Position)
      (CharBuf.alloc lump.LumpSize.toNat)).res = L.SZ_OK := by
    by_contra herr
    rw [FillCache_of_error L lump Archive Reader hneg herr] at h1
    exact FillOutcome.noConfusion h1
  have hfirst := (FillCache_call L lump Archive Reader hneg).1
  rw [hok] at hfirst
  have e1 := FillCache_of_ok L lump Archive Reader hneg hok
  have hl : (lump.FillCache L Archive Reader).lump.LumpSize = lump.LumpSize := by rw [e1]
  have hp : (lump.FillCache L Archive Reader).lump.Position = lump.Position := by rw [e1]
  have hneg1 : ¬ (lump.FillCache L Archive Reader).lump.LumpSize < 0 := by rw [hl]; exact hneg
  have hcall := FillCache_call L (lump.FillCache L Archive Reader).lump
    (lump.FillCache L Archive Reader).Archive (lump.FillCache L Archive Reader).Reader hneg1
  rw [hl, hp] at hcall
  have hsecond := hcall.1
  rw [hfirst, List.append_assoc] at hsecond
  refine ⟨hfirst, ⟨_, hsecond⟩, ?_, hcall.2⟩
  rw [hsecond, List.length_append]
  rfl

/-- A concrete instance of `FillCache_twice`, on the one-byte lump and the stub engine. -/
theorem FillCache_twice_witness :
    (testLump.FillCache testSz (F7ZFile.Open.header testSz testFile).Archive
        (F7ZFile.Open.header testSz testFile).File).outcome = .returned 1 ∧
      (testLump.FillCache testSz (F7ZFile.Open.header testSz testFile).Archive
        (F7ZFile.Open.header testSz testFile).File).Archive.Extracts =
        (F7ZFile.Open.header testSz testFile).Archive.Extracts ++
          [(toUInt32 testLump.Position, testSz.SZ_OK)] :=
  ⟨by decide, (FillCache_twice testSz testLump (F7ZFile.Open.header testSz testFile).Archive
    (F7ZFile.Open.header testSz testFile).File (by decide)).1⟩

end FileSys
